import Mathlib

/-
Verification of the field descriptor pipeline and typed-collection subsystem of the
`related` declarative model framework, as implemented in `src/related/fields.py`.

The embedding models Python values as the inductive type `PyVal`.  Python floats are
modelled by their exact rational value (every literal used here, such as `0.0`, is a
dyadic rational, so this is exact); `decimal.Decimal` values are likewise modelled by
rationals; temporal values are modelled abstractly by an integer ordinal; UUID values by
their 128-bit integer.  A Python `dict` is an insertion-ordered association list.

`fields.py` imports `_init_fields`, `converters`, `validators` and `types` from the
package; those modules are not part of the sources under review, so their definitions
below are modelled from the specification (each such definition carries a doc comment
starting with `Modelled from the spec:`).  Everything defined from `fields.py` itself
follows that file directly.
-/

/-- A Python runtime value, as far as the field pipeline observes it. -/
inductive PyVal where
  | none
  | bool (b : Bool)
  | int (n : Int)
  | float (q : ℚ)
  | str (s : String)
  | decimal (q : ℚ)
  | date (d : Int)
  | datetime (t : Int)
  | time (t : Int)
  | uuid (u : Nat)
  | url (s : String)
  | list (xs : List PyVal)
  | set (xs : List PyVal)
  | dict (entries : List (String × PyVal))
  | typedSeq (xs : List PyVal)
  | typedSet (xs : List PyVal)
  | typedMap (entries : List (PyVal × PyVal))
  | child (fields : List (String × PyVal))

mutual

/-- Structural boolean equality on `PyVal` (Python `==` restricted to the values the
pipeline builds; numeric cross-type equalities such as `1 == True` are not modelled). -/
def pyBeq : PyVal → PyVal → Bool
  | .none, .none => true
  | .bool a, .bool b => a == b
  | .int a, .int b => a == b
  | .float a, .float b => a == b
  | .str a, .str b => a == b
  | .decimal a, .decimal b => a == b
  | .date a, .date b => a == b
  | .datetime a, .datetime b => a == b
  | .time a, .time b => a == b
  | .uuid a, .uuid b => a == b
  | .url a, .url b => a == b
  | .list xs, .list ys => pyBeqL xs ys
  | .set xs, .set ys => pyBeqL xs ys
  | .dict xs, .dict ys => pyBeqF xs ys
  | .typedSeq xs, .typedSeq ys => pyBeqL xs ys
  | .typedSet xs, .typedSet ys => pyBeqL xs ys
  | .typedMap xs, .typedMap ys => pyBeqP xs ys
  | .child xs, .child ys => pyBeqF xs ys
  | _, _ => false
termination_by structural a => a

/-- Elementwise equality of value lists. -/
def pyBeqL : List PyVal → List PyVal → Bool
  | [], [] => true
  | x :: xs, y :: ys => pyBeq x y && pyBeqL xs ys
  | _, _ => false
termination_by structural xs => xs

/-- Elementwise equality of string-keyed entry lists. -/
def pyBeqF : List (String × PyVal) → List (String × PyVal) → Bool
  | [], [] => true
  | (k, v) :: xs, (k2, v2) :: ys => k == k2 && pyBeq v v2 && pyBeqF xs ys
  | _, _ => false
termination_by structural xs => xs

/-- Elementwise equality of value-keyed entry lists. -/
def pyBeqP : List (PyVal × PyVal) → List (PyVal × PyVal) → Bool
  | [], [] => true
  | (a, b) :: xs, (a2, b2) :: ys => pyBeq a a2 && pyBeq b b2 && pyBeqP xs ys
  | _, _ => false
termination_by structural xs => xs

end

set_option maxHeartbeats 1600000

mutual

def pyBeq_iff : (a b : PyVal) → (pyBeq a b = true ↔ a = b)
  | .none, b => by cases b <;> simp [pyBeq]
  | .bool x, b => by cases b <;> simp [pyBeq]
  | .int x, b => by cases b <;> simp [pyBeq]
  | .float x, b => by cases b <;> simp [pyBeq]
  | .str x, b => by cases b <;> simp [pyBeq]
  | .decimal x, b => by cases b <;> simp [pyBeq]
  | .date x, b => by cases b <;> simp [pyBeq]
  | .datetime x, b => by cases b <;> simp [pyBeq]
  | .time x, b => by cases b <;> simp [pyBeq]
  | .uuid x, b => by cases b <;> simp [pyBeq]
  | .url x, b => by cases b <;> simp [pyBeq]
  | .list xs, b => by
      cases b <;> simp [pyBeq]
      exact pyBeqL_iff xs _
  | .set xs, b => by
      cases b <;> simp [pyBeq]
      exact pyBeqL_iff xs _
  | .dict xs, b => by
      cases b <;> simp [pyBeq]
      exact pyBeqF_iff xs _
  | .typedSeq xs, b => by
      cases b <;> simp [pyBeq]
      exact pyBeqL_iff xs _
  | .typedSet xs, b => by
      cases b <;> simp [pyBeq]
      exact pyBeqL_iff xs _
  | .typedMap xs, b => by
      cases b <;> simp [pyBeq]
      exact pyBeqP_iff xs _
  | .child xs, b => by
      cases b <;> simp [pyBeq]
      exact pyBeqF_iff xs _
termination_by a _ => sizeOf a

def pyBeqL_iff : (xs ys : List PyVal) → (pyBeqL xs ys = true ↔ xs = ys)
  | [], ys => by cases ys <;> simp [pyBeqL]
  | x :: xs, [] => by simp [pyBeqL]
  | x :: xs, y :: ys => by
      simp [pyBeqL, pyBeq_iff x y, pyBeqL_iff xs ys]
termination_by xs _ => sizeOf xs

def pyBeqF_iff : (xs ys : List (String × PyVal)) → (pyBeqF xs ys = true ↔ xs = ys)
  | [], ys => by cases ys <;> simp [pyBeqF]
  | x :: xs, [] => by simp [pyBeqF]
  | (k, v) :: xs, (k2, v2) :: ys => by
      simp [pyBeqF, pyBeq_iff v v2, pyBeqF_iff xs ys, and_assoc]
termination_by xs _ => sizeOf xs

def pyBeqP_iff : (xs ys : List (PyVal × PyVal)) → (pyBeqP xs ys = true ↔ xs = ys)
  | [], ys => by cases ys <;> simp [pyBeqP]
  | x :: xs, [] => by simp [pyBeqP]
  | (a, v) :: xs, (a2, v2) :: ys => by
      simp [pyBeqP, pyBeq_iff a a2, pyBeq_iff v v2, pyBeqP_iff xs ys, and_assoc]
termination_by xs _ => sizeOf xs

end

instance : DecidableEq PyVal := fun a b => decidable_of_iff _ (pyBeq_iff a b)

/-- The contents of a Python `dict` with string keys, in insertion order. -/
abbrev Meta := List (String × PyVal)

/-- Lookup in an insertion-ordered dict (first entry with the key). -/
def dictGet : Meta → String → Option PyVal
  | [], _ => Option.none
  | (k2, v) :: rest, k => if k2 = k then some v else dictGet rest k

/-- Python `d[k] = v`: an existing key keeps its position and gets the new value, a new
key is appended at the end. -/
def dictSet : Meta → String → PyVal → Meta
  | [], k, v => [(k, v)]
  | (k2, v2) :: rest, k, v =>
      if k2 = k then (k2, v) :: rest else (k2, v2) :: dictSet rest k v

/-- Python `d.update(other)`: set each entry of `other` in `d`, in order. -/
def dictUpdate (d : Meta) (other : Meta) : Meta :=
  other.foldl (fun acc p => dictSet acc p.1 p.2) d

/-- The value stored for the `key` preset: the key argument string, or Python `None`
when the caller did not pass one. -/
def keyToVal : Option String → PyVal
  | Option.none => PyVal.none
  | some s => .str s

/-- Embeds `_field_metadata(metadata, **preset)` of fields.py (lines 325 to 329): a `None`
mapping is replaced by a fresh empty dict, then `metadata.update(preset)` writes every
preset entry into the mapping and the mapping itself is returned.  `dict.update` mutates
the caller's mapping in place, so the embedding returns a pair: the resulting metadata
dict, and the contents of the caller-supplied mapping after the call (`none` when the
caller passed no mapping, since then only the fresh dict is touched). -/
def _field_metadata (metadata : Option Meta) (preset : Meta) : Meta × Option Meta :=
  match metadata with
  | Option.none => (dictUpdate [] preset, Option.none)
  | some m => (dictUpdate m preset, some (dictUpdate m preset))

/-- A default argument as the caller supplies it: the `NOTHING` sentinel of the attr
library, a plain value, or a callable (a zero-argument generator, modelled as a function
of the per-instantiation entropy index). -/
inductive RawDefault where
  | nothing
  | value (v : PyVal)
  | callable (f : Nat → PyVal)

/-- The resolved default policy of a descriptor (spec section 3, DefaultPolicy). -/
inductive DefaultPolicy where
  | noDefault
  | fixed (v : PyVal)
  | factory (f : Nat → PyVal)

/-- Modelled from the spec: `_init_fields.init_default(required, default, optional_default)`
(section 4.1, Default Resolver).  A required field resolves to no default; an optional
field with an absent default takes the kind-specific `optional_default` (the empty
container sentinel, `None`, or a per-kind implicit factory such as `uuid4`); a callable
default resolves to a factory invoked per instantiation; any other default is fixed. -/
def init_default (required : Bool) (default : RawDefault) (optional_default : RawDefault) :
    DefaultPolicy :=
  if required then .noDefault
  else
    match default with
    | .nothing =>
        match optional_default with
        | .nothing => .fixed PyVal.none
        | .value v => .fixed v
        | .callable f => .factory f
    | .value v => .fixed v
    | .callable f => .factory f

/-- Modelled from the spec: the fresh-identifier generator `uuid.uuid4`, whose value
depends only on the per-instantiation entropy index and is distinct for distinct
instantiations. -/
def uuid4 (entropy : Nat) : PyVal := .uuid entropy

/-- A Python class usable as the canonical-type argument of a validator. -/
inductive PyType where
  | obj
  | bool
  | int
  | float
  | str
  | date
  | datetime
  | time
  | decimal
  | uuid
  | url
  | typedSequence
  | typedSet
  | typedMapping
  | model
deriving DecidableEq

/-- Python `isinstance` on the modelled classes; `obj` is `object` and accepts anything,
`bool` is a subclass of `int`, `datetime` is a subclass of `date`, and `model` stands for
a concrete related model class accepting its instances. -/
def isInstance : PyVal → PyType → Bool
  | _, .obj => true
  | .bool _, .bool => true
  | .bool _, .int => true
  | .int _, .int => true
  | .float _, .float => true
  | .str _, .str => true
  | .date _, .date => true
  | .datetime _, .datetime => true
  | .datetime _, .date => true
  | .time _, .time => true
  | .decimal _, .decimal => true
  | .uuid _, .uuid => true
  | .url _, .url => true
  | .typedSeq _, .typedSequence => true
  | .typedSet _, .typedSet => true
  | .typedMap _, .typedMapping => true
  | .child _, .model => true
  | _, _ => false

/-- Modelled from the spec: `_init_fields.init_validator(required, cls, *extra)`
(section 4.3, Validator composition).  The composed predicate chain: the required check
rejects an absent (null) value when the field is required; the instance check and the
extra predicates apply only to present values; the composition is always returned, so a
descriptor's validator is never null. -/
def init_validator (required : Bool) (cls : PyType) (extra : List (PyVal → Bool)) :
    Option (PyVal → Bool) :=
  some (fun v =>
    if v = PyVal.none then !required
    else isInstance v cls && extra.all (fun p => p v))

/-- Numeric value of a list of decimal digit characters; fails on an empty list or any
non-digit character. -/
def digitsToNat : List Char → Option Nat
  | [] => Option.none
  | cs =>
      cs.foldl
        (fun acc c =>
          match acc with
          | some n => if c.isDigit then some (10 * n + (c.toNat - 48)) else Option.none
          | Option.none => Option.none)
        (some 0)

/-- Integer literal parser modelling Python `int(string)`: an optional sign followed by
decimal digits (surrounding whitespace and underscores are not modelled). -/
def parseIntStr (s : String) : Option Int :=
  match s.toList with
  | '-' :: rest => (digitsToNat rest).map (fun n => -(n : Int))
  | '+' :: rest => (digitsToNat rest).map (fun n => (n : Int))
  | cs => (digitsToNat cs).map (fun n => (n : Int))

/-- Unsigned decimal literal: digits with an optional fractional part. -/
def parseUnsignedDec (cs : List Char) : Option ℚ :=
  match cs.splitOn '.' with
  | [ip] => (digitsToNat ip).map (fun n => (n : ℚ))
  | [ip, fp] =>
      match digitsToNat ip, digitsToNat fp with
      | some n, some f => some ((n : ℚ) + (f : ℚ) / (10 : ℚ) ^ fp.length)
      | _, _ => Option.none
  | _ => Option.none

/-- Decimal literal parser modelling the numeric strings accepted by Python `float` and
`decimal.Decimal`: optional sign, digits, optional fractional part (exponents and
special values are not modelled). -/
def parseDecStr (s : String) : Option ℚ :=
  match s.toList with
  | '-' :: rest => (parseUnsignedDec rest).map (fun q => -q)
  | '+' :: rest => parseUnsignedDec rest
  | cs => parseUnsignedDec cs

/-- Value of a hexadecimal digit character. -/
def hexVal (c : Char) : Option Nat :=
  if c.isDigit then some (c.toNat - 48)
  else if 'a' ≤ c && c ≤ 'f' then some (c.toNat - 87)
  else if 'A' ≤ c && c ≤ 'F' then some (c.toNat - 55)
  else Option.none

/-- UUID string parser modelling `uuid.UUID(string)`: 32 hexadecimal digits, hyphens
ignored; anything else is malformed. -/
def parseUUIDStr (s : String) : Option Nat :=
  let cs := (s.toList.filter (fun c => c ≠ '-')).map hexVal
  if cs.length = 32 then
    cs.foldl
      (fun acc d =>
        match acc, d with
        | some n, some h => some (16 * n + h)
        | _, _ => Option.none)
      (some 0)
  else Option.none

/-- Truncation toward zero, modelling Python `int()` applied to a numeric value. -/
def ratTrunc (q : ℚ) : Int := q.num.tdiv q.den

/-- Rendering of a value as a string, modelling Python `str()`; only the string case is
relevant to the properties proved here, scalar renderings are the natural ones and
non-scalar renderings are abbreviated. -/
def pyStr : PyVal → String
  | .str s => s
  | .bool b => cond b "True" "False"
  | .int n => toString n
  | .float q => toString q
  | .decimal q => toString q
  | .date d => toString d
  | .datetime t => toString t
  | .time t => toString t
  | .uuid u => toString u
  | .url s => s
  | _ => "object"

/-- Modelled from the spec: `converters.str_if_not_none` (section 4.2, String/Regex row:
any stringifiable, null passthrough). -/
def str_if_not_none : PyVal → Option PyVal
  | PyVal.none => some PyVal.none
  | v => some (.str (pyStr v))

/-- Modelled from the spec: `converters.int_if_not_none` (section 4.2, Integer row:
numeric, numeric string, null passthrough; reject non-numeric). -/
def int_if_not_none : PyVal → Option PyVal
  | PyVal.none => some PyVal.none
  | .bool b => some (.int (cond b 1 0))
  | .int n => some (.int n)
  | .float q => some (.int (ratTrunc q))
  | .decimal q => some (.int (ratTrunc q))
  | .str s => (parseIntStr s).map .int
  | _ => Option.none

/-- Modelled from the spec: `converters.float_if_not_none` (section 4.2, Float row:
numeric, numeric string, null passthrough; reject non-numeric). -/
def float_if_not_none : PyVal → Option PyVal
  | PyVal.none => some PyVal.none
  | .bool b => some (.float (cond b 1 0))
  | .int n => some (.float n)
  | .float q => some (.float q)
  | .decimal q => some (.float q)
  | .str s => (parseDecStr s).map .float
  | _ => Option.none

/-- The converter of `DecimalField`, the lambda `lambda x: Decimal(x)` of fields.py
(line 320) composed with the standard-library `Decimal` constructor: `Decimal` accepts
int, bool, float, Decimal and numeric strings, and raises on every other input — in
particular on `None`, so this converter has no null passthrough. -/
def decimal_of : PyVal → Option PyVal
  | .int n => some (.decimal n)
  | .bool b => some (.decimal (cond b 1 0))
  | .float q => some (.decimal q)
  | .decimal q => some (.decimal q)
  | .str s => (parseDecStr s).map .decimal
  | _ => Option.none

/-- Modelled from the spec: `converters.str_to_uuid` (section 4.2, UUID row): a string is
parsed as a UUID (malformed strings rejected), any other value passes through to the
validator. -/
def str_to_uuid : PyVal → Option PyVal
  | .str s => (parseUUIDStr s).map .uuid
  | v => some v

/-- Modelled from the spec: `converters.str_to_url` (section 4.2, URL row): a string is
parsed into a parsed-URL value, any other value passes through to the validator. -/
def str_to_url : PyVal → Option PyVal
  | .str s => some (.url s)
  | v => some v

/-- Modelled from the spec: `converters.to_date_field(formatter)` (section 4.2): a string
is parsed via the supplied formatter (`datetime.strptime`, abstracted as the `strptime`
argument, rejecting unparseable strings), a native temporal value passes through to the
validator. -/
def to_date_field (strptime : String → Option Int) : PyVal → Option PyVal
  | .str s => (strptime s).map .date
  | v => some v

/-- Modelled from the spec: `converters.to_datetime_field(formatter)` (section 4.2). -/
def to_datetime_field (strptime : String → Option Int) : PyVal → Option PyVal
  | .str s => (strptime s).map .datetime
  | v => some v

/-- Modelled from the spec: `converters.to_time_field(formatter)` (section 4.2). -/
def to_time_field (strptime : String → Option Int) : PyVal → Option PyVal
  | .str s => (strptime s).map .time
  | v => some v

/-- Modelled from the spec: `converters.to_child_field(cls)` (section 4.2, Child row): a
mapping is fed to the nested model's own construction (abstracted as `construct`, which
yields the fields of the resulting instance or fails with that model's own errors), an
already-typed instance passes through unchanged, null passes through to the validator,
and any other raw shape is rejected. -/
def to_child_field (construct : List (String × PyVal) → Option (List (String × PyVal))) :
    PyVal → Option PyVal
  | .dict e => (construct e).map .child
  | .child f => some (.child f)
  | PyVal.none => some PyVal.none
  | _ => Option.none

/-- Elementwise conversion of a raw element list, failing with the first element's
error (all-or-nothing construction). -/
def mapMOpt (f : PyVal → Option PyVal) : List PyVal → Option (List PyVal)
  | [] => some []
  | x :: xs =>
      match f x, mapMOpt f xs with
      | some y, some ys => some (y :: ys)
      | _, _ => Option.none

/-- Modelled from the spec: TypedSequence construction (section 4.4) as performed by
`converters.to_sequence_field(cls)`: iterate the raw iterable in order, run every element
through the element type's converter-validator pipeline (abstracted as `elemConv`),
append, and fail with the first element's error.  Re-converting a TypedSequence re-runs
the element pipeline on its (already canonical) elements. -/
def to_sequence_field (elemConv : PyVal → Option PyVal) : PyVal → Option PyVal
  | .list xs => (mapMOpt elemConv xs).map .typedSeq
  | .typedSeq xs => (mapMOpt elemConv xs).map .typedSeq
  | _ => Option.none

/-- Modelled from the spec: TypedSet construction (section 4.4) as performed by
`converters.to_set_field(cls)`: convert every element, then de-duplicate; duplicate
canonical elements collapse with no error. -/
def to_set_field (elemConv : PyVal → Option PyVal) : PyVal → Option PyVal
  | .list xs => (mapMOpt elemConv xs).map (fun ys => .typedSet ys.dedup)
  | .set xs => (mapMOpt elemConv xs).map (fun ys => .typedSet ys.dedup)
  | .typedSet xs => (mapMOpt elemConv xs).map (fun ys => .typedSet ys.dedup)
  | _ => Option.none

/-- Attribute read off a canonical child instance, modelling `getattr(child, child_key)`;
fails when the attribute is missing or the value is not a model instance. -/
def getAttrVal : PyVal → String → Option PyVal
  | .child fs, k => dictGet fs k
  | _, _ => Option.none

/-- Keyed-map insertion, modelling `d[k] = v` on a Python (ordered) dict with arbitrary
keys: an existing equal key keeps its position and receives the new value (last write
wins), a new key is appended. -/
def mapInsert : List (PyVal × PyVal) → PyVal → PyVal → List (PyVal × PyVal)
  | [], k, v => [(k, v)]
  | (k2, v2) :: rest, k, v =>
      if k2 = k then (k2, v) :: rest else (k2, v2) :: mapInsert rest k v

/-- Modelled from the spec: the TypedMapping construction loop (section 4.4): for each raw
child in order, convert and validate it via the element pipeline, read the `child_key`
attribute off the canonical child to derive the map key, and insert. -/
def buildTypedMapping (elemConv : PyVal → Option PyVal) (child_key : String) :
    List PyVal → List (PyVal × PyVal) → Option (List (PyVal × PyVal))
  | [], acc => some acc
  | r :: rs, acc =>
      match elemConv r with
      | Option.none => Option.none
      | some c =>
          match getAttrVal c child_key with
          | Option.none => Option.none
          | some k => buildTypedMapping elemConv child_key rs (mapInsert acc k c)

/-- Modelled from the spec: `converters.to_mapping_field(cls, child_key)` (section 4.4,
TypedMapping): the raw children are the values of a raw mapping or the elements of a
plain iterable; each is converted and keyed by its `child_key` attribute; later entries
with an equal derived key overwrite earlier ones. -/
def to_mapping_field (elemConv : PyVal → Option PyVal) (child_key : String) :
    PyVal → Option PyVal
  | .dict kvs => (buildTypedMapping elemConv child_key (kvs.map Prod.snd) []).map .typedMap
  | .typedMap kvs =>
      (buildTypedMapping elemConv child_key (kvs.map Prod.snd) []).map .typedMap
  | .list xs => (buildTypedMapping elemConv child_key xs []).map .typedMap
  | _ => Option.none

/-- The field descriptor produced by `attrib(...)` as each constructor of fields.py calls
it: default policy, optional converter (attrs applies no conversion when it is `None`),
optional validator, the repr and cmp flags, and the metadata mapping.  The `type`
argument of `attrib` carries no pipeline behaviour and is not modelled. -/
structure FieldDescriptor where
  default : DefaultPolicy
  converter : Option (PyVal → Option PyVal)
  validator : Option (PyVal → Bool)
  repr : Bool
  cmp : Bool
  metadata : Meta

/-- A child class argument: a forward reference by name (validated only as `object`) or a
resolved model class. -/
inductive ClsRef where
  | name (s : String)
  | cls (t : PyType)

/-- The class a `ChildField` validator checks against: `object` for a string forward
reference, the class itself otherwise (fields.py lines 47 to 49). -/
def clsRefType : ClsRef → PyType
  | .name _ => .obj
  | .cls t => t

/-- Embeds `BooleanField` of fields.py (lines 13 to 29).  Note that no converter is
passed to `attrib`. -/
def BooleanField (default : RawDefault) (required repr cmp : Bool) (key : Option String)
    (metadata : Option Meta) : FieldDescriptor × Option Meta :=
  ({ default := init_default required default (.value PyVal.none)
     converter := Option.none
     validator := init_validator required .bool []
     repr := repr, cmp := cmp
     metadata := (_field_metadata metadata [("key", keyToVal key)]).1 },
   (_field_metadata metadata [("key", keyToVal key)]).2)

/-- Embeds `ChildField` of fields.py (lines 32 to 52); the nested model's construction is
abstracted as `construct` (see `to_child_field`). -/
def ChildField (cls : ClsRef)
    (construct : List (String × PyVal) → Option (List (String × PyVal)))
    (default : RawDefault) (required repr cmp : Bool) (key : Option String)
    (metadata : Option Meta) : FieldDescriptor × Option Meta :=
  ({ default := init_default required default (.value PyVal.none)
     converter := some (to_child_field construct)
     validator := init_validator required (clsRefType cls) []
     repr := repr, cmp := cmp
     metadata := (_field_metadata metadata [("key", keyToVal key)]).1 },
   (_field_metadata metadata [("key", keyToVal key)]).2)

/-- Embeds `DateField` of fields.py (lines 55 to 74); string parsing with the formatter
is abstracted as `strptime`.  The metadata presets are `formatter` and `key`. -/
def DateField (formatter : String) (strptime : String → Option Int) (default : RawDefault)
    (required repr cmp : Bool) (key : Option String) (metadata : Option Meta) :
    FieldDescriptor × Option Meta :=
  ({ default := init_default required default (.value PyVal.none)
     converter := some (to_date_field strptime)
     validator := init_validator required .date []
     repr := repr, cmp := cmp
     metadata :=
       (_field_metadata metadata [("formatter", .str formatter), ("key", keyToVal key)]).1 },
   (_field_metadata metadata [("formatter", .str formatter), ("key", keyToVal key)]).2)

/-- Embeds `DateTimeField` of fields.py (lines 77 to 96). -/
def DateTimeField (formatter : String) (strptime : String → Option Int)
    (default : RawDefault) (required repr cmp : Bool) (key : Option String)
    (metadata : Option Meta) : FieldDescriptor × Option Meta :=
  ({ default := init_default required default (.value PyVal.none)
     converter := some (to_datetime_field strptime)
     validator := init_validator required .datetime []
     repr := repr, cmp := cmp
     metadata :=
       (_field_metadata metadata [("formatter", .str formatter), ("key", keyToVal key)]).1 },
   (_field_metadata metadata [("formatter", .str formatter), ("key", keyToVal key)]).2)

/-- Embeds `TimeField` of fields.py (lines 99 to 118). -/
def TimeField (formatter : String) (strptime : String → Option Int) (default : RawDefault)
    (required repr cmp : Bool) (key : Option String) (metadata : Option Meta) :
    FieldDescriptor × Option Meta :=
  ({ default := init_default required default (.value PyVal.none)
     converter := some (to_time_field strptime)
     validator := init_validator required .time []
     repr := repr, cmp := cmp
     metadata :=
       (_field_metadata metadata [("formatter", .str formatter), ("key", keyToVal key)]).1 },
   (_field_metadata metadata [("formatter", .str formatter), ("key", keyToVal key)]).2)

/-- Embeds `FloatField` of fields.py (lines 121 to 138). -/
def FloatField (default : RawDefault) (required repr cmp : Bool) (key : Option String)
    (metadata : Option Meta) : FieldDescriptor × Option Meta :=
  ({ default := init_default required default (.value PyVal.none)
     converter := some float_if_not_none
     validator := init_validator required .float []
     repr := repr, cmp := cmp
     metadata := (_field_metadata metadata [("key", keyToVal key)]).1 },
   (_field_metadata metadata [("key", keyToVal key)]).2)

/-- Embeds `IntegerField` of fields.py (lines 141 to 158). -/
def IntegerField (default : RawDefault) (required repr cmp : Bool) (key : Option String)
    (metadata : Option Meta) : FieldDescriptor × Option Meta :=
  ({ default := init_default required default (.value PyVal.none)
     converter := some int_if_not_none
     validator := init_validator required .int []
     repr := repr, cmp := cmp
     metadata := (_field_metadata metadata [("key", keyToVal key)]).1 },
   (_field_metadata metadata [("key", keyToVal key)]).2)

/-- Embeds `MappingField` of fields.py (lines 161 to 180); the signature has no `cmp`
parameter, so `attrib` receives its default `cmp=True`; the optional default is an empty
`OrderedDict`. -/
def MappingField (elemConv : PyVal → Option PyVal) (child_key : String)
    (default : RawDefault) (required repr : Bool) (key : Option String)
    (metadata : Option Meta) : FieldDescriptor × Option Meta :=
  ({ default := init_default required default (.value (.dict []))
     converter := some (to_mapping_field elemConv child_key)
     validator := init_validator required .typedMapping []
     repr := repr, cmp := true
     metadata := (_field_metadata metadata [("key", keyToVal key)]).1 },
   (_field_metadata metadata [("key", keyToVal key)]).2)

/-- Embeds `RegexField` of fields.py (lines 183 to 202); the compiled-pattern match of
`validators.regex(regex)` is abstracted as the predicate `re_match`. -/
def RegexField (regex : String) (re_match : String → Bool) (default : RawDefault)
    (required repr cmp : Bool) (key : Option String) (metadata : Option Meta) :
    FieldDescriptor × Option Meta :=
  ({ default := init_default required default (.value PyVal.none)
     converter := some str_if_not_none
     validator :=
       init_validator required .str
         [fun v => match v with | .str s => re_match s | _ => false]
     repr := repr, cmp := cmp
     metadata := (_field_metadata metadata [("key", keyToVal key)]).1 },
   (_field_metadata metadata [("key", keyToVal key)]).2)

/-- Embeds `SequenceField` of fields.py (lines 205 to 222); no `cmp` parameter; the
optional default is an empty list. -/
def SequenceField (elemConv : PyVal → Option PyVal) (default : RawDefault)
    (required repr : Bool) (key : Option String) (metadata : Option Meta) :
    FieldDescriptor × Option Meta :=
  ({ default := init_default required default (.value (.list []))
     converter := some (to_sequence_field elemConv)
     validator := init_validator required .typedSequence []
     repr := repr, cmp := true
     metadata := (_field_metadata metadata [("key", keyToVal key)]).1 },
   (_field_metadata metadata [("key", keyToVal key)]).2)

/-- Embeds `SetField` of fields.py (lines 225 to 242); no `cmp` parameter; the optional
default is an empty set. -/
def SetField (elemConv : PyVal → Option PyVal) (default : RawDefault)
    (required repr : Bool) (key : Option String) (metadata : Option Meta) :
    FieldDescriptor × Option Meta :=
  ({ default := init_default required default (.value (.set []))
     converter := some (to_set_field elemConv)
     validator := init_validator required .typedSet []
     repr := repr, cmp := true
     metadata := (_field_metadata metadata [("key", keyToVal key)]).1 },
   (_field_metadata metadata [("key", keyToVal key)]).2)

/-- Embeds `StringField` of fields.py (lines 245 to 262). -/
def StringField (default : RawDefault) (required repr cmp : Bool) (key : Option String)
    (metadata : Option Meta) : FieldDescriptor × Option Meta :=
  ({ default := init_default required default (.value PyVal.none)
     converter := some str_if_not_none
     validator := init_validator required .str []
     repr := repr, cmp := cmp
     metadata := (_field_metadata metadata [("key", keyToVal key)]).1 },
   (_field_metadata metadata [("key", keyToVal key)]).2)

/-- Embeds `URLField` of fields.py (lines 265 to 282); the canonical class is
`ParseResult`. -/
def URLField (default : RawDefault) (required repr cmp : Bool) (key : Option String)
    (metadata : Option Meta) : FieldDescriptor × Option Meta :=
  ({ default := init_default required default (.value PyVal.none)
     converter := some str_to_url
     validator := init_validator required .url []
     repr := repr, cmp := cmp
     metadata := (_field_metadata metadata [("key", keyToVal key)]).1 },
   (_field_metadata metadata [("key", keyToVal key)]).2)

/-- Embeds `UUIDField` of fields.py (lines 285 to 302); note `required=False` is the
signature default and the optional default is the callable `uuid4`, a per-kind implicit
factory. -/
def UUIDField (default : RawDefault) (required repr cmp : Bool) (key : Option String)
    (metadata : Option Meta) : FieldDescriptor × Option Meta :=
  ({ default := init_default required default (.callable uuid4)
     converter := some str_to_uuid
     validator := init_validator required .uuid []
     repr := repr, cmp := cmp
     metadata := (_field_metadata metadata [("key", keyToVal key)]).1 },
   (_field_metadata metadata [("key", keyToVal key)]).2)

/-- Embeds `DecimalField` of fields.py (lines 305 to 322); the converter is the lambda
`lambda x: Decimal(x)`. -/
def DecimalField (default : RawDefault) (required repr cmp : Bool) (key : Option String)
    (metadata : Option Meta) : FieldDescriptor × Option Meta :=
  ({ default := init_default required default (.value PyVal.none)
     converter := some decimal_of
     validator := init_validator required .decimal []
     repr := repr, cmp := cmp
     metadata := (_field_metadata metadata [("key", keyToVal key)]).1 },
   (_field_metadata metadata [("key", keyToVal key)]).2)

/-- The error taxonomy of one field's pipeline (spec section 7). -/
inductive FieldError where
  | missingRequired
  | conversionError
  | validationError
deriving DecidableEq

/-- Conversion step of the assembler: attrs applies no conversion when the descriptor has
no converter. -/
def runConverter (c : Option (PyVal → Option PyVal)) (v : PyVal) : Option PyVal :=
  match c with
  | Option.none => some v
  | some f => f v

/-- One field's converter-then-validator pipeline on a raw (or default) value. -/
def runPipeline (d : FieldDescriptor) (v : PyVal) : Except FieldError PyVal :=
  match runConverter d.converter v with
  | Option.none => .error .conversionError
  | some cv =>
      match d.validator with
      | Option.none => .ok cv
      | some val => if val cv then .ok cv else .error .validationError

/-- The Model Assembler boundary (spec section 6): at instantiation, an absent raw value
is filled from the default policy (a factory is invoked fresh, at the instantiation's
entropy index), then `converter` and `validator` run and the first failure is raised. -/
def instantiateField (d : FieldDescriptor) (raw : Option PyVal) (entropy : Nat) :
    Except FieldError PyVal :=
  match raw with
  | some r => runPipeline d r
  | Option.none =>
      match d.default with
      | .noDefault => .error .missingRequired
      | .fixed v => runPipeline d v
      | .factory f => runPipeline d (f entropy)

/-- Lookup in a keyed map built by the TypedMapping construction. -/
def mapGet : List (PyVal × PyVal) → PyVal → Option PyVal
  | [], _ => Option.none
  | (k2, v) :: rest, k => if k2 = k then some v else mapGet rest k

/-- Idempotence of a converter on every raw input it accepts (spec section 4.2):
converting the canonical result again succeeds and changes nothing. -/
def IdemConv (c : PyVal → Option PyVal) : Prop :=
  ∀ x y, c x = some y → c y = some y

/-- Lookup in the caller-supplied metadata argument of a field constructor (`none` when
the caller passed no mapping or the key is absent). -/
def callerLookup (metadata : Option Meta) (q : String) : Option PyVal :=
  match metadata with
  | Option.none => Option.none
  | some m => dictGet m q

/-- The folding contract of a descriptor metadata `md` over caller metadata `m` for a
constructor whose only preset is the output key: the `key` entry is set explicitly from
the key argument, and every other caller-supplied entry survives unchanged. -/
def FoldsKeyPreset (md m : Meta) (key : Option String) : Prop :=
  ∀ q : String, dictGet md q = if q = "key" then some (keyToVal key) else dictGet m q

/-- The folding contract for the temporal constructors, whose presets are `formatter`
and `key`: both preset entries win over caller entries of the same name, and every other
caller-supplied entry survives unchanged. -/
def FoldsTemporalPresets (md m : Meta) (formatter : String) (key : Option String) : Prop :=
  ∀ q : String,
    dictGet md q =
      if q = "key" then some (keyToVal key)
      else if q = "formatter" then some (.str formatter)
      else dictGet m q

theorem dictGet_dictSet (d : Meta) (k q : String) (v : PyVal) :
    dictGet (dictSet d k v) q = if q = k then some v else dictGet d q := by
  induction d with
  | nil =>
      rcases eq_or_ne q k with h | h
      · simp [dictSet, dictGet, h]
      · simp [dictSet, dictGet, h, Ne.symm h]
  | cons p rest ih =>
      obtain ⟨k2, v2⟩ := p
      rcases eq_or_ne k2 k with h | h
      · subst h
        rcases eq_or_ne q k2 with h2 | h2
        · simp [dictSet, dictGet, h2]
        · simp [dictSet, dictGet, h2, Ne.symm h2]
      · rcases eq_or_ne k2 q with h2 | h2
        · subst h2
          simp [dictSet, dictGet, h, Ne.symm h]
        · simp [dictSet, dictGet, h, h2, ih]

theorem field_metadata_key_preset (m : Meta) (key : Option String) :
    FoldsKeyPreset (_field_metadata (some m) [("key", keyToVal key)]).1 m key := by
  intro q
  show dictGet (dictSet m "key" (keyToVal key)) q = _
  rw [dictGet_dictSet]

theorem field_metadata_temporal_presets (m : Meta) (formatter : String)
    (key : Option String) :
    FoldsTemporalPresets
      (_field_metadata (some m) [("formatter", .str formatter), ("key", keyToVal key)]).1
      m formatter key := by
  intro q
  show dictGet (dictSet (dictSet m "formatter" (.str formatter)) "key" (keyToVal key)) q = _
  rw [dictGet_dictSet, dictGet_dictSet]

/-- C1: for every field constructor, when the caller supplies a metadata mapping, the
descriptor's metadata folds the caller entries with the kind-specific presets: a
caller-supplied entry survives exactly when its key is not preset, the `key` entry is
set explicitly from the constructor's key argument, and for the temporal constructors
the `formatter` preset likewise wins over a caller entry of the same name. -/
theorem field_constructors_fold_caller_metadata :
    ∀ (m : Meta) (key : Option String) (df : RawDefault) (req rp cm : Bool)
      (cls : ClsRef) (construct : List (String × PyVal) → Option (List (String × PyVal)))
      (fmt : String) (strp : String → Option Int) (ec : PyVal → Option PyVal)
      (ck rgx : String) (rm : String → Bool),
      FoldsKeyPreset (BooleanField df req rp cm key (some m)).1.metadata m key ∧
      FoldsKeyPreset (ChildField cls construct df req rp cm key (some m)).1.metadata m key ∧
      FoldsTemporalPresets (DateField fmt strp df req rp cm key (some m)).1.metadata m fmt key ∧
      FoldsTemporalPresets (DateTimeField fmt strp df req rp cm key (some m)).1.metadata m fmt key ∧
      FoldsTemporalPresets (TimeField fmt strp df req rp cm key (some m)).1.metadata m fmt key ∧
      FoldsKeyPreset (FloatField df req rp cm key (some m)).1.metadata m key ∧
      FoldsKeyPreset (IntegerField df req rp cm key (some m)).1.metadata m key ∧
      FoldsKeyPreset (MappingField ec ck df req rp key (some m)).1.metadata m key ∧
      FoldsKeyPreset (RegexField rgx rm df req rp cm key (some m)).1.metadata m key ∧
      FoldsKeyPreset (SequenceField ec df req rp key (some m)).1.metadata m key ∧
      FoldsKeyPreset (SetField ec df req rp key (some m)).1.metadata m key ∧
      FoldsKeyPreset (StringField df req rp cm key (some m)).1.metadata m key ∧
      FoldsKeyPreset (URLField df req rp cm key (some m)).1.metadata m key ∧
      FoldsKeyPreset (UUIDField df req rp cm key (some m)).1.metadata m key ∧
      FoldsKeyPreset (DecimalField df req rp cm key (some m)).1.metadata m key := by
  intro m key df req rp cm cls construct fmt strp ec ck rgx rm
  refine ⟨?_, ?_, ?_, ?_, ?_, ?_, ?_, ?_, ?_, ?_, ?_, ?_, ?_, ?_, ?_⟩ <;>
    first
      | exact field_metadata_key_preset m key
      | exact field_metadata_temporal_presets m fmt key

/-- C2 counterexample: the descriptor produced by `BooleanField` has a null converter —
fields.py (lines 28 to 29) passes no converter to `attrib`, so attrs stores `None`. -/
theorem booleanField_converter_is_none :
    (BooleanField .nothing true true true Option.none Option.none).1.converter =
      Option.none := rfl

/-- C2 amended: every field constructor produces a descriptor with a non-null validator,
and every field constructor except `BooleanField` produces a descriptor with a non-null
converter; `BooleanField`'s converter is null (attrs then applies no conversion). -/
theorem field_constructors_converter_validator_presence :
    ∀ (md : Option Meta) (key : Option String) (df : RawDefault) (req rp cm : Bool)
      (cls : ClsRef) (construct : List (String × PyVal) → Option (List (String × PyVal)))
      (fmt : String) (strp : String → Option Int) (ec : PyVal → Option PyVal)
      (ck rgx : String) (rm : String → Bool),
      (BooleanField df req rp cm key md).1.converter = Option.none ∧
      (BooleanField df req rp cm key md).1.validator.isSome = true ∧
      (ChildField cls construct df req rp cm key md).1.converter.isSome = true ∧
      (ChildField cls construct df req rp cm key md).1.validator.isSome = true ∧
      (DateField fmt strp df req rp cm key md).1.converter.isSome = true ∧
      (DateField fmt strp df req rp cm key md).1.validator.isSome = true ∧
      (DateTimeField fmt strp df req rp cm key md).1.converter.isSome = true ∧
      (DateTimeField fmt strp df req rp cm key md).1.validator.isSome = true ∧
      (TimeField fmt strp df req rp cm key md).1.converter.isSome = true ∧
      (TimeField fmt strp df req rp cm key md).1.validator.isSome = true ∧
      (FloatField df req rp cm key md).1.converter.isSome = true ∧
      (FloatField df req rp cm key md).1.validator.isSome = true ∧
      (IntegerField df req rp cm key md).1.converter.isSome = true ∧
      (IntegerField df req rp cm key md).1.validator.isSome = true ∧
      (MappingField ec ck df req rp key md).1.converter.isSome = true ∧
      (MappingField ec ck df req rp key md).1.validator.isSome = true ∧
      (RegexField rgx rm df req rp cm key md).1.converter.isSome = true ∧
      (RegexField rgx rm df req rp cm key md).1.validator.isSome = true ∧
      (SequenceField ec df req rp key md).1.converter.isSome = true ∧
      (SequenceField ec df req rp key md).1.validator.isSome = true ∧
      (SetField ec df req rp key md).1.converter.isSome = true ∧
      (SetField ec df req rp key md).1.validator.isSome = true ∧
      (StringField df req rp cm key md).1.converter.isSome = true ∧
      (StringField df req rp cm key md).1.validator.isSome = true ∧
      (URLField df req rp cm key md).1.converter.isSome = true ∧
      (URLField df req rp cm key md).1.validator.isSome = true ∧
      (UUIDField df req rp cm key md).1.converter.isSome = true ∧
      (UUIDField df req rp cm key md).1.validator.isSome = true ∧
      (DecimalField df req rp cm key md).1.converter.isSome = true ∧
      (DecimalField df req rp cm key md).1.validator.isSome = true := by
  intro md key df req rp cm cls construct fmt strp ec ck rgx rm
  exact ⟨rfl, rfl, rfl, rfl, rfl, rfl, rfl, rfl, rfl, rfl, rfl, rfl, rfl, rfl, rfl,
    rfl, rfl, rfl, rfl, rfl, rfl, rfl, rfl, rfl, rfl, rfl, rfl, rfl, rfl, rfl⟩

theorem field_metadata_key_entry (md : Option Meta) (key : Option String) :
    dictGet (_field_metadata md [("key", keyToVal key)]).1 "key" = some (keyToVal key) := by
  cases md with
  | none =>
      show dictGet (dictSet [] "key" (keyToVal key)) "key" = _
      rw [dictGet_dictSet]
      simp
  | some m =>
      have h := field_metadata_key_preset m key "key"
      simpa using h

theorem field_metadata_exclude_entry (md : Option Meta) (key : Option String) :
    dictGet (_field_metadata md [("key", keyToVal key)]).1 "exclude" =
      callerLookup md "exclude" := by
  cases md with
  | none =>
      show dictGet (dictSet [] "key" (keyToVal key)) "exclude" = _
      rw [dictGet_dictSet]
      simp [callerLookup, dictGet]
  | some m =>
      have h := field_metadata_key_preset m key "exclude"
      simpa [callerLookup] using h

theorem field_metadata_key_entry_temporal (md : Option Meta) (fmt : String)
    (key : Option String) :
    dictGet (_field_metadata md [("formatter", .str fmt), ("key", keyToVal key)]).1 "key" =
      some (keyToVal key) := by
  cases md with
  | none =>
      show dictGet (dictSet (dictSet [] "formatter" (.str fmt)) "key" (keyToVal key))
          "key" = _
      rw [dictGet_dictSet]
      simp
  | some m =>
      have h := field_metadata_temporal_presets m fmt key "key"
      simpa using h

theorem field_metadata_exclude_entry_temporal (md : Option Meta) (fmt : String)
    (key : Option String) :
    dictGet (_field_metadata md [("formatter", .str fmt), ("key", keyToVal key)]).1
        "exclude" =
      callerLookup md "exclude" := by
  cases md with
  | none =>
      show dictGet (dictSet (dictSet [] "formatter" (.str fmt)) "key" (keyToVal key))
          "exclude" = _
      rw [dictGet_dictSet, dictGet_dictSet]
      simp [callerLookup, dictGet]
  | some m =>
      have h := field_metadata_temporal_presets m fmt key "exclude"
      simpa [callerLookup] using h

/-- C3 counterexample: a `StringField` declared with no key argument and no metadata
mapping gets metadata `{'key': None}` — the `exclude` entry is not retrievable at all
and the output key entry is null. -/
theorem default_metadata_missing_exclude_and_null_key :
    (StringField .nothing true true true Option.none Option.none).1.metadata =
        [("key", PyVal.none)] ∧
    dictGet (StringField .nothing true true true Option.none Option.none).1.metadata
        "exclude" = Option.none ∧
    dictGet (StringField .nothing true true true Option.none Option.none).1.metadata
        "key" = some PyVal.none :=
  ⟨rfl, rfl, rfl⟩

/-- C3 amended: for every field constructor, the descriptor's metadata always contains a
retrievable output key entry under `key`, equal to the constructor's key argument (null
when the caller passed none); an `exclude` entry is present exactly when the caller
supplied one in the metadata mapping — no constructor presets it. -/
theorem field_constructors_metadata_key_exclude :
    ∀ (md : Option Meta) (key : Option String) (df : RawDefault) (req rp cm : Bool)
      (cls : ClsRef) (construct : List (String × PyVal) → Option (List (String × PyVal)))
      (fmt : String) (strp : String → Option Int) (ec : PyVal → Option PyVal)
      (ck rgx : String) (rm : String → Bool),
      dictGet (BooleanField df req rp cm key md).1.metadata "key" = some (keyToVal key) ∧
      dictGet (BooleanField df req rp cm key md).1.metadata "exclude" =
        callerLookup md "exclude" ∧
      dictGet (ChildField cls construct df req rp cm key md).1.metadata "key" =
        some (keyToVal key) ∧
      dictGet (ChildField cls construct df req rp cm key md).1.metadata "exclude" =
        callerLookup md "exclude" ∧
      dictGet (DateField fmt strp df req rp cm key md).1.metadata "key" =
        some (keyToVal key) ∧
      dictGet (DateField fmt strp df req rp cm key md).1.metadata "exclude" =
        callerLookup md "exclude" ∧
      dictGet (DateTimeField fmt strp df req rp cm key md).1.metadata "key" =
        some (keyToVal key) ∧
      dictGet (DateTimeField fmt strp df req rp cm key md).1.metadata "exclude" =
        callerLookup md "exclude" ∧
      dictGet (TimeField fmt strp df req rp cm key md).1.metadata "key" =
        some (keyToVal key) ∧
      dictGet (TimeField fmt strp df req rp cm key md).1.metadata "exclude" =
        callerLookup md "exclude" ∧
      dictGet (FloatField df req rp cm key md).1.metadata "key" = some (keyToVal key) ∧
      dictGet (FloatField df req rp cm key md).1.metadata "exclude" =
        callerLookup md "exclude" ∧
      dictGet (IntegerField df req rp cm key md).1.metadata "key" = some (keyToVal key) ∧
      dictGet (IntegerField df req rp cm key md).1.metadata "exclude" =
        callerLookup md "exclude" ∧
      dictGet (MappingField ec ck df req rp key md).1.metadata "key" =
        some (keyToVal key) ∧
      dictGet (MappingField ec ck df req rp key md).1.metadata "exclude" =
        callerLookup md "exclude" ∧
      dictGet (RegexField rgx rm df req rp cm key md).1.metadata "key" =
        some (keyToVal key) ∧
      dictGet (RegexField rgx rm df req rp cm key md).1.metadata "exclude" =
        callerLookup md "exclude" ∧
      dictGet (SequenceField ec df req rp key md).1.metadata "key" =
        some (keyToVal key) ∧
      dictGet (SequenceField ec df req rp key md).1.metadata "exclude" =
        callerLookup md "exclude" ∧
      dictGet (SetField ec df req rp key md).1.metadata "key" = some (keyToVal key) ∧
      dictGet (SetField ec df req rp key md).1.metadata "exclude" =
        callerLookup md "exclude" ∧
      dictGet (StringField df req rp cm key md).1.metadata "key" = some (keyToVal key) ∧
      dictGet (StringField df req rp cm key md).1.metadata "exclude" =
        callerLookup md "exclude" ∧
      dictGet (URLField df req rp cm key md).1.metadata "key" = some (keyToVal key) ∧
      dictGet (URLField df req rp cm key md).1.metadata "exclude" =
        callerLookup md "exclude" ∧
      dictGet (UUIDField df req rp cm key md).1.metadata "key" = some (keyToVal key) ∧
      dictGet (UUIDField df req rp cm key md).1.metadata "exclude" =
        callerLookup md "exclude" ∧
      dictGet (DecimalField df req rp cm key md).1.metadata "key" = some (keyToVal key) ∧
      dictGet (DecimalField df req rp cm key md).1.metadata "exclude" =
        callerLookup md "exclude" := by
  intro md key df req rp cm cls construct fmt strp ec ck rgx rm
  refine ⟨?_, ?_, ?_, ?_, ?_, ?_, ?_, ?_, ?_, ?_, ?_, ?_, ?_, ?_, ?_,
    ?_, ?_, ?_, ?_, ?_, ?_, ?_, ?_, ?_, ?_, ?_, ?_, ?_, ?_, ?_⟩ <;>
    first
      | exact field_metadata_key_entry md key
      | exact field_metadata_exclude_entry md key
      | exact field_metadata_key_entry_temporal md fmt key
      | exact field_metadata_exclude_entry_temporal md fmt key

/-- C4 counterexample: `StringField` called with an empty caller metadata dict leaves
that dict holding the `key` preset after the call — `metadata.update(preset)` in
`_field_metadata` mutates the caller's mapping in place, so the mapping is no longer
empty (`decide` of equality with its old contents is `false`). -/
theorem stringField_mutates_caller_metadata :
    (StringField .nothing true true true Option.none (some [])).2 =
        some [("key", PyVal.none)] ∧
    decide ((StringField .nothing true true true Option.none (some [])).2 =
        some ([] : Meta)) = false :=
  ⟨rfl, by decide⟩

/-- C4 amended: no field constructor mutates global state, but the constructors are not
free of side effects on their inputs: when the caller supplies a metadata mapping, that
mapping is updated in place with the kind-specific presets and aliased as the
descriptor's metadata (its contents after the call are exactly the descriptor's
metadata); when the caller supplies no mapping, nothing outside the returned descriptor
is touched. -/
theorem field_constructors_metadata_side_effect :
    ∀ (m : Meta) (key : Option String) (df : RawDefault) (req rp cm : Bool)
      (cls : ClsRef) (construct : List (String × PyVal) → Option (List (String × PyVal)))
      (fmt : String) (strp : String → Option Int) (ec : PyVal → Option PyVal)
      (ck rgx : String) (rm : String → Bool),
      (BooleanField df req rp cm key (some m)).2 =
        some (BooleanField df req rp cm key (some m)).1.metadata ∧
      (BooleanField df req rp cm key Option.none).2 = Option.none ∧
      (ChildField cls construct df req rp cm key (some m)).2 =
        some (ChildField cls construct df req rp cm key (some m)).1.metadata ∧
      (ChildField cls construct df req rp cm key Option.none).2 = Option.none ∧
      (DateField fmt strp df req rp cm key (some m)).2 =
        some (DateField fmt strp df req rp cm key (some m)).1.metadata ∧
      (DateField fmt strp df req rp cm key Option.none).2 = Option.none ∧
      (DateTimeField fmt strp df req rp cm key (some m)).2 =
        some (DateTimeField fmt strp df req rp cm key (some m)).1.metadata ∧
      (DateTimeField fmt strp df req rp cm key Option.none).2 = Option.none ∧
      (TimeField fmt strp df req rp cm key (some m)).2 =
        some (TimeField fmt strp df req rp cm key (some m)).1.metadata ∧
      (TimeField fmt strp df req rp cm key Option.none).2 = Option.none ∧
      (FloatField df req rp cm key (some m)).2 =
        some (FloatField df req rp cm key (some m)).1.metadata ∧
      (FloatField df req rp cm key Option.none).2 = Option.none ∧
      (IntegerField df req rp cm key (some m)).2 =
        some (IntegerField df req rp cm key (some m)).1.metadata ∧
      (IntegerField df req rp cm key Option.none).2 = Option.none ∧
      (MappingField ec ck df req rp key (some m)).2 =
        some (MappingField ec ck df req rp key (some m)).1.metadata ∧
      (MappingField ec ck df req rp key Option.none).2 = Option.none ∧
      (RegexField rgx rm df req rp cm key (some m)).2 =
        some (RegexField rgx rm df req rp cm key (some m)).1.metadata ∧
      (RegexField rgx rm df req rp cm key Option.none).2 = Option.none ∧
      (SequenceField ec df req rp key (some m)).2 =
        some (SequenceField ec df req rp key (some m)).1.metadata ∧
      (SequenceField ec df req rp key Option.none).2 = Option.none ∧
      (SetField ec df req rp key (some m)).2 =
        some (SetField ec df req rp key (some m)).1.metadata ∧
      (SetField ec df req rp key Option.none).2 = Option.none ∧
      (StringField df req rp cm key (some m)).2 =
        some (StringField df req rp cm key (some m)).1.metadata ∧
      (StringField df req rp cm key Option.none).2 = Option.none ∧
      (URLField df req rp cm key (some m)).2 =
        some (URLField df req rp cm key (some m)).1.metadata ∧
      (URLField df req rp cm key Option.none).2 = Option.none ∧
      (UUIDField df req rp cm key (some m)).2 =
        some (UUIDField df req rp cm key (some m)).1.metadata ∧
      (UUIDField df req rp cm key Option.none).2 = Option.none ∧
      (DecimalField df req rp cm key (some m)).2 =
        some (DecimalField df req rp cm key (some m)).1.metadata ∧
      (DecimalField df req rp cm key Option.none).2 = Option.none := by
  intro m key df req rp cm cls construct fmt strp ec ck rgx rm
  exact ⟨rfl, rfl, rfl, rfl, rfl, rfl, rfl, rfl, rfl, rfl, rfl, rfl, rfl, rfl, rfl,
    rfl, rfl, rfl, rfl, rfl, rfl, rfl, rfl, rfl, rfl, rfl, rfl, rfl, rfl, rfl⟩

/-- C5: a UUID field declared `required=False` with no explicit default resolves to the
Factory policy holding `uuid4` (not a Fixed value); instantiating with no raw value
invokes the factory fresh, so two instantiations at distinct entropy indices yield two
different freshly generated UUID values. -/
theorem uuidField_factory_default_fresh :
    (UUIDField .nothing false true true Option.none Option.none).1.default =
        .factory uuid4 ∧
    (∀ e : Nat,
      instantiateField (UUIDField .nothing false true true Option.none Option.none).1
          Option.none e = .ok (.uuid e)) ∧
    ∀ e1 e2 : Nat, e1 ≠ e2 →
      instantiateField (UUIDField .nothing false true true Option.none Option.none).1
          Option.none e1 ≠
        instantiateField (UUIDField .nothing false true true Option.none Option.none).1
          Option.none e2 := by
  refine ⟨rfl, fun e => rfl, ?_⟩
  intro e1 e2 hne h
  have h2 : (Except.ok (PyVal.uuid e1) : Except FieldError PyVal) = .ok (.uuid e2) := h
  injection h2 with h3
  injection h3 with h4
  exact hne h4

/-- C5 witness: the factory-freshness law applied at the concrete entropy indices 0
and 1. -/
theorem uuidField_factory_default_fresh_witness :
    (0 : Nat) ≠ 1 ∧
    instantiateField (UUIDField .nothing false true true Option.none Option.none).1
        Option.none 0 ≠
      instantiateField (UUIDField .nothing false true true Option.none Option.none).1
        Option.none 1 :=
  ⟨by decide, uuidField_factory_default_fresh.2.2 0 1 (by decide)⟩

/-- C6 counterexample: the optional Boolean pipeline does not reject every non-bool raw
input — the raw value `None` is itself a non-bool input and is accepted (the field has
no converter and the optional validator admits null). -/
theorem booleanField_optional_accepts_null :
    instantiateField (BooleanField .nothing false true true Option.none Option.none).1
        (some PyVal.none) 0 = .ok PyVal.none ∧
    isInstance PyVal.none .bool = false :=
  ⟨rfl, rfl⟩

/-- C6 amended: a Boolean field declared `required=False` with no default yields
canonical `None` when instantiated with no raw value; a string raw value such as
`"true"` raises a validation error (strings are never coerced to bool, there being no
converter); bool raw input is accepted unchanged; and every non-bool raw input other
than null is rejected (null is admitted by the optional validator). -/
theorem booleanField_optional_pipeline :
    (∀ e : Nat,
      instantiateField (BooleanField .nothing false true true Option.none Option.none).1
          Option.none e = .ok PyVal.none) ∧
    (∀ e : Nat,
      instantiateField (BooleanField .nothing false true true Option.none Option.none).1
          (some (.str "true")) e = .error .validationError) ∧
    (∀ (e : Nat) (b : Bool),
      instantiateField (BooleanField .nothing false true true Option.none Option.none).1
          (some (.bool b)) e = .ok (.bool b)) ∧
    ∀ (e : Nat) (v : PyVal), v ≠ PyVal.none → isInstance v .bool = false →
      instantiateField (BooleanField .nothing false true true Option.none Option.none).1
          (some v) e = .error .validationError := by
  refine ⟨fun e => rfl, fun e => rfl, fun e b => rfl, ?_⟩
  intro e v h1 h2
  simp [instantiateField, BooleanField, runPipeline, runConverter, init_validator, h1, h2]

/-- C6 witness: the rejection law applied at the concrete non-bool, non-null raw value
`5`. -/
theorem booleanField_optional_pipeline_witness :
    instantiateField (BooleanField .nothing false true true Option.none Option.none).1
        (some (.int 5)) 0 = .error .validationError :=
  booleanField_optional_pipeline.2.2.2 0 (.int 5) (by decide) rfl

/-- C7: the Decimal field's converter maps the raw numeric value `0.0` to a decimal
value equal to zero, and raises a conversion error on the raw string `"abc"`, aborting
construction. -/
theorem decimalField_zero_and_invalid_string :
    (∀ e : Nat,
      instantiateField (DecimalField .nothing true true true Option.none Option.none).1
          (some (.float 0)) e = .ok (.decimal 0)) ∧
    (∀ e : Nat,
      instantiateField (DecimalField .nothing true true true Option.none Option.none).1
          (some (.str "abc")) e = .error .conversionError) ∧
    decimal_of (.float 0) = some (.decimal 0) ∧
    decimal_of (.str "abc") = Option.none := by
  refine ⟨fun e => rfl, fun e => rfl, rfl, rfl⟩

/-- C10: the Decimal converter applies the decimal coercion unconditionally, with no
null passthrough — unlike the Integer, Float and String converters, which pass null
through.  Hence a Decimal field declared `required=False` with no default (resolved
default `Fixed None`) raises a conversion error when the field's raw value is omitted,
while the analogous Integer, Float and String fields yield canonical `None`. -/
theorem decimalField_no_null_passthrough :
    decimal_of PyVal.none = Option.none ∧
    int_if_not_none PyVal.none = some PyVal.none ∧
    float_if_not_none PyVal.none = some PyVal.none ∧
    str_if_not_none PyVal.none = some PyVal.none ∧
    (DecimalField .nothing false true true Option.none Option.none).1.default =
      .fixed PyVal.none ∧
    (∀ e : Nat,
      instantiateField (DecimalField .nothing false true true Option.none Option.none).1
          Option.none e = .error .conversionError) ∧
    (∀ e : Nat,
      instantiateField (IntegerField .nothing false true true Option.none Option.none).1
          Option.none e = .ok PyVal.none) ∧
    (∀ e : Nat,
      instantiateField (FloatField .nothing false true true Option.none Option.none).1
          Option.none e = .ok PyVal.none) ∧
    ∀ e : Nat,
      instantiateField (StringField .nothing false true true Option.none Option.none).1
          Option.none e = .ok PyVal.none :=
  ⟨rfl, rfl, rfl, rfl, rfl, fun e => rfl, fun e => rfl, fun e => rfl, fun e => rfl⟩

theorem idem_identity_conversion : IdemConv (runConverter Option.none) := by
  intro x y hx
  have h2 : some x = some y := hx
  injection h2 with h3
  subst h3
  rfl

theorem idem_str_if_not_none : IdemConv str_if_not_none := by
  intro x y h
  cases x <;>
    (simp only [str_if_not_none, Option.some.injEq] at h; subst h; rfl)

theorem idem_int_if_not_none : IdemConv int_if_not_none := by
  intro x y h
  cases x <;>
    first
      | (simp only [int_if_not_none, Option.some.injEq] at h; subst h; rfl)
      | (simp only [int_if_not_none, Option.map_eq_some'] at h
         obtain ⟨n, hn, rfl⟩ := h
         rfl)
      | (simp only [int_if_not_none] at h; exact Option.noConfusion h)

theorem idem_float_if_not_none : IdemConv float_if_not_none := by
  intro x y h
  cases x <;>
    first
      | (simp only [float_if_not_none, Option.some.injEq] at h; subst h; rfl)
      | (simp only [float_if_not_none, Option.map_eq_some'] at h
         obtain ⟨n, hn, rfl⟩ := h
         rfl)
      | (simp only [float_if_not_none] at h; exact Option.noConfusion h)

theorem idem_decimal_of : IdemConv decimal_of := by
  intro x y h
  cases x <;>
    first
      | (simp only [decimal_of, Option.some.injEq] at h; subst h; rfl)
      | (simp only [decimal_of, Option.map_eq_some'] at h
         obtain ⟨n, hn, rfl⟩ := h
         rfl)
      | (simp only [decimal_of] at h; exact Option.noConfusion h)

theorem idem_str_to_uuid : IdemConv str_to_uuid := by
  intro x y h
  cases x <;>
    first
      | (simp only [str_to_uuid, Option.some.injEq] at h; subst h; rfl)
      | (simp only [str_to_uuid, Option.map_eq_some'] at h
         obtain ⟨n, hn, rfl⟩ := h
         rfl)

theorem idem_str_to_url : IdemConv str_to_url := by
  intro x y h
  cases x <;>
    (simp only [str_to_url, Option.some.injEq] at h; subst h; rfl)

theorem idem_to_date_field (strp : String → Option Int) : IdemConv (to_date_field strp) := by
  intro x y h
  cases x <;>
    first
      | (simp only [to_date_field, Option.some.injEq] at h; subst h; rfl)
      | (simp only [to_date_field, Option.map_eq_some'] at h
         obtain ⟨n, hn, rfl⟩ := h
         rfl)

theorem idem_to_datetime_field (strp : String → Option Int) :
    IdemConv (to_datetime_field strp) := by
  intro x y h
  cases x <;>
    first
      | (simp only [to_datetime_field, Option.some.injEq] at h; subst h; rfl)
      | (simp only [to_datetime_field, Option.map_eq_some'] at h
         obtain ⟨n, hn, rfl⟩ := h
         rfl)

theorem idem_to_time_field (strp : String → Option Int) : IdemConv (to_time_field strp) := by
  intro x y h
  cases x <;>
    first
      | (simp only [to_time_field, Option.some.injEq] at h; subst h; rfl)
      | (simp only [to_time_field, Option.map_eq_some'] at h
         obtain ⟨n, hn, rfl⟩ := h
         rfl)

theorem idem_to_child_field
    (construct : List (String × PyVal) → Option (List (String × PyVal))) :
    IdemConv (to_child_field construct) := by
  intro x y h
  cases x <;>
    first
      | (simp only [to_child_field, Option.some.injEq] at h; subst h; rfl)
      | (simp only [to_child_field, Option.map_eq_some'] at h
         obtain ⟨f, hf, rfl⟩ := h
         rfl)
      | (simp only [to_child_field] at h; exact Option.noConfusion h)

theorem mapMOpt_mem_ex (ec : PyVal → Option PyVal) :
    ∀ xs ys, mapMOpt ec xs = some ys → ∀ y ∈ ys, ∃ x, ec x = some y := by
  intro xs
  induction xs with
  | nil =>
      intro ys h y hy
      simp only [mapMOpt, Option.some.injEq] at h
      subst h
      simp at hy
  | cons x xs ih =>
      intro ys h y hy
      simp only [mapMOpt] at h
      cases hx : ec x with
      | none =>
          simp only [hx] at h
          exact Option.noConfusion h
      | some y1 =>
          cases hxs : mapMOpt ec xs with
          | none =>
              simp only [hx, hxs] at h
              exact Option.noConfusion h
          | some ys1 =>
              simp only [hx, hxs, Option.some.injEq] at h
              subst h
              rcases List.mem_cons.mp hy with h2 | h2
              · exact ⟨x, by rw [hx, h2]⟩
              · exact ih ys1 hxs y h2

theorem mapMOpt_self (ec : PyVal → Option PyVal) :
    ∀ ys, (∀ y ∈ ys, ec y = some y) → mapMOpt ec ys = some ys := by
  intro ys
  induction ys with
  | nil => intro _; rfl
  | cons y ys ih =>
      intro h
      have hy := h y (List.mem_cons_self y ys)
      have hrest := ih fun z hz => h z (List.mem_cons_of_mem y hz)
      simp [mapMOpt, hy, hrest]

theorem idem_to_sequence_field (ec : PyVal → Option PyVal) (h : IdemConv ec) :
    IdemConv (to_sequence_field ec) := by
  have key : ∀ xs ys, mapMOpt ec xs = some ys →
      to_sequence_field ec (.typedSeq ys) = some (.typedSeq ys) := by
    intro xs ys hm
    have hall : ∀ z ∈ ys, ec z = some z := by
      intro z hz
      obtain ⟨x0, hx0⟩ := mapMOpt_mem_ex ec xs ys hm z hz
      exact h x0 z hx0
    show (mapMOpt ec ys).map PyVal.typedSeq = _
    rw [mapMOpt_self ec ys hall]
    rfl
  intro x y hx
  cases x <;>
    first
      | exact Option.noConfusion hx
      | (obtain ⟨ys, hm, rfl⟩ := Option.map_eq_some'.mp hx
         exact key _ ys hm)

theorem idem_to_set_field (ec : PyVal → Option PyVal) (h : IdemConv ec) :
    IdemConv (to_set_field ec) := by
  have key : ∀ xs ys, mapMOpt ec xs = some ys →
      to_set_field ec (.typedSet ys.dedup) = some (.typedSet ys.dedup) := by
    intro xs ys hm
    have hall : ∀ z ∈ ys.dedup, ec z = some z := by
      intro z hz
      obtain ⟨x0, hx0⟩ := mapMOpt_mem_ex ec xs ys hm z (List.mem_dedup.mp hz)
      exact h x0 z hx0
    show (mapMOpt ec ys.dedup).map (fun zs => PyVal.typedSet zs.dedup) = _
    rw [mapMOpt_self ec ys.dedup hall]
    simp [List.dedup_idem]
  intro x y hx
  cases x <;>
    first
      | exact Option.noConfusion hx
      | (obtain ⟨ys, hm, rfl⟩ := Option.map_eq_some'.mp hx
         exact key _ ys hm)

theorem mapInsert_keys (acc : List (PyVal × PyVal)) (k c : PyVal) :
    (mapInsert acc k c).map Prod.fst =
      if k ∈ acc.map Prod.fst then acc.map Prod.fst else acc.map Prod.fst ++ [k] := by
  induction acc with
  | nil => simp [mapInsert]
  | cons p rest ih =>
      obtain ⟨k2, v2⟩ := p
      rcases eq_or_ne k2 k with h | h
      · subst h
        simp [mapInsert]
      · by_cases hm : k ∈ rest.map Prod.fst
        · simp [mapInsert, h, Ne.symm h, ih, hm]
        · simp [mapInsert, h, Ne.symm h, ih, hm]

theorem mapInsert_append_of_not_mem (acc : List (PyVal × PyVal)) (k c : PyVal)
    (h : k ∉ acc.map Prod.fst) : mapInsert acc k c = acc ++ [(k, c)] := by
  induction acc with
  | nil => rfl
  | cons p rest ih =>
      obtain ⟨k2, v2⟩ := p
      simp only [List.map_cons, List.mem_cons] at h
      push_neg at h
      obtain ⟨h1, h2⟩ := h
      simp [mapInsert, Ne.symm h1, ih h2]

theorem mapInsert_nodup (acc : List (PyVal × PyVal)) (k c : PyVal)
    (h : (acc.map Prod.fst).Nodup) : ((mapInsert acc k c).map Prod.fst).Nodup := by
  rw [mapInsert_keys]
  by_cases hm : k ∈ acc.map Prod.fst
  · rwa [if_pos hm]
  · rw [if_neg hm]
    exact List.Nodup.append h (List.nodup_singleton _)
      fun a ha hb => hm (List.mem_singleton.mp hb ▸ ha)

theorem mapInsert_entries_ok (ec : PyVal → Option PyVal) (ck : String) (k c : PyVal)
    (hc : ec c = some c) (hk : getAttrVal c ck = some k) :
    ∀ acc, (∀ p ∈ acc, ec p.2 = some p.2 ∧ getAttrVal p.2 ck = some p.1) →
      ∀ p ∈ mapInsert acc k c, ec p.2 = some p.2 ∧ getAttrVal p.2 ck = some p.1 := by
  intro acc
  induction acc with
  | nil =>
      intro _ p hp
      simp only [mapInsert, List.mem_singleton] at hp
      subst hp
      exact ⟨hc, hk⟩
  | cons q rest ih =>
      obtain ⟨k2, v2⟩ := q
      intro hacc p hp
      rcases eq_or_ne k2 k with h | h
      · subst h
        simp only [mapInsert, if_pos rfl] at hp
        rcases List.mem_cons.mp hp with h2 | h2
        · subst h2
          exact ⟨hc, hk⟩
        · exact hacc _ (List.mem_cons_of_mem _ h2)
      · simp only [mapInsert, if_neg h] at hp
        rcases List.mem_cons.mp hp with h2 | h2
        · subst h2
          exact hacc _ (List.mem_cons_self _ _)
        · exact ih (fun q hq => hacc q (List.mem_cons_of_mem _ hq)) p h2

theorem buildTypedMapping_ok (ec : PyVal → Option PyVal) (ck : String) (h : IdemConv ec) :
    ∀ (raws : List PyVal) (acc res : List (PyVal × PyVal)),
      buildTypedMapping ec ck raws acc = some res →
      (∀ p ∈ acc, ec p.2 = some p.2 ∧ getAttrVal p.2 ck = some p.1) →
      (acc.map Prod.fst).Nodup →
      (∀ p ∈ res, ec p.2 = some p.2 ∧ getAttrVal p.2 ck = some p.1) ∧
        (res.map Prod.fst).Nodup := by
  intro raws
  induction raws with
  | nil =>
      intro acc res hb hacc hnd
      simp only [buildTypedMapping, Option.some.injEq] at hb
      subst hb
      exact ⟨hacc, hnd⟩
  | cons r rs ih =>
      intro acc res hb hacc hnd
      simp only [buildTypedMapping] at hb
      cases hr : ec r with
      | none =>
          simp only [hr] at hb
          exact Option.noConfusion hb
      | some c =>
          simp only [hr] at hb
          cases hk : getAttrVal c ck with
          | none =>
              simp only [hk] at hb
              exact Option.noConfusion hb
          | some k =>
              simp only [hk] at hb
              have hc : ec c = some c := h r c hr
              exact ih (mapInsert acc k c) res hb
                (mapInsert_entries_ok ec ck k c hc hk acc hacc)
                (mapInsert_nodup acc k c hnd)

theorem buildTypedMapping_rebuild (ec : PyVal → Option PyVal) (ck : String) :
    ∀ (todo done : List (PyVal × PyVal)),
      (∀ p ∈ done ++ todo, ec p.2 = some p.2 ∧ getAttrVal p.2 ck = some p.1) →
      ((done ++ todo).map Prod.fst).Nodup →
      buildTypedMapping ec ck (todo.map Prod.snd) done = some (done ++ todo) := by
  intro todo
  induction todo with
  | nil =>
      intro done h hnd
      simp [buildTypedMapping]
  | cons p todo ih =>
      obtain ⟨k, c⟩ := p
      intro done h hnd
      have hp := h (k, c) (by simp)
      have hknotin : k ∉ done.map Prod.fst := by
        intro hk
        rw [List.map_append] at hnd
        rcases List.nodup_append.mp hnd with ⟨_, _, hdisj⟩
        exact hdisj hk (by simp)
      have hperm : (done ++ [(k, c)]) ++ todo = done ++ (k, c) :: todo := by simp
      simp only [List.map_cons, buildTypedMapping, hp.1, hp.2]
      rw [mapInsert_append_of_not_mem done k c hknotin]
      have hrec := ih (done ++ [(k, c)]) (by rw [hperm]; exact h) (by rw [hperm]; exact hnd)
      rw [hperm] at hrec
      exact hrec

theorem idem_to_mapping_field (ec : PyVal → Option PyVal) (ck : String) (h : IdemConv ec) :
    IdemConv (to_mapping_field ec ck) := by
  have key : ∀ raws res, buildTypedMapping ec ck raws [] = some res →
      to_mapping_field ec ck (.typedMap res) = some (.typedMap res) := by
    intro raws res hb
    obtain ⟨hinv, hnd⟩ :=
      buildTypedMapping_ok ec ck h raws [] res hb (by simp) (by simp)
    show (buildTypedMapping ec ck (res.map Prod.snd) []).map PyVal.typedMap = _
    have hreb := buildTypedMapping_rebuild ec ck res [] (by simpa using hinv) (by simpa using hnd)
    rw [show ([] : List (PyVal × PyVal)) ++ res = res from rfl] at hreb
    rw [hreb]
    rfl
  intro x y hx
  cases x <;>
    first
      | exact Option.noConfusion hx
      | (obtain ⟨res, hb, rfl⟩ := Option.map_eq_some'.mp hx
         exact key _ res hb)

/-- C8: every field kind's converter is idempotent — whenever it succeeds on a raw
input, applying it again to the canonical result succeeds and returns the same value.
The Boolean kind has no converter, so its conversion is the identity applied by the
assembler; the collection kinds are idempotent whenever their element pipeline is. -/
theorem field_converters_idempotent :
    IdemConv (runConverter Option.none) ∧
    (∀ construct, IdemConv (to_child_field construct)) ∧
    (∀ strp, IdemConv (to_date_field strp)) ∧
    (∀ strp, IdemConv (to_datetime_field strp)) ∧
    (∀ strp, IdemConv (to_time_field strp)) ∧
    IdemConv float_if_not_none ∧
    IdemConv int_if_not_none ∧
    (∀ ec ck, IdemConv ec → IdemConv (to_mapping_field ec ck)) ∧
    IdemConv str_if_not_none ∧
    (∀ ec, IdemConv ec → IdemConv (to_sequence_field ec)) ∧
    (∀ ec, IdemConv ec → IdemConv (to_set_field ec)) ∧
    IdemConv str_to_url ∧
    IdemConv str_to_uuid ∧
    IdemConv decimal_of :=
  ⟨idem_identity_conversion, idem_to_child_field, idem_to_date_field,
    idem_to_datetime_field, idem_to_time_field, idem_float_if_not_none,
    idem_int_if_not_none, fun ec ck h => idem_to_mapping_field ec ck h,
    idem_str_if_not_none, fun ec h => idem_to_sequence_field ec h,
    fun ec h => idem_to_set_field ec h, idem_str_to_url, idem_str_to_uuid,
    idem_decimal_of⟩

/-- C8 witness: the idempotence law evaluated at concrete inputs — the Decimal converter
on the raw float `0.0`, and the Sequence converter (with the String element converter,
whose own idempotence is the String conjunct) on the raw list `["a"]`. -/
theorem field_converters_idempotent_witness :
    decimal_of (.decimal 0) = some (.decimal 0) ∧
    to_sequence_field str_if_not_none (.typedSeq [.str "a"]) =
      some (.typedSeq [.str "a"]) := by
  constructor
  · exact field_converters_idempotent.2.2.2.2.2.2.2.2.2.2.2.2.2
      (.float 0) (.decimal 0) rfl
  · exact field_converters_idempotent.2.2.2.2.2.2.2.2.2.1
      str_if_not_none field_converters_idempotent.2.2.2.2.2.2.2.2.1
      (.list [.str "a"]) (.typedSeq [.str "a"]) rfl

/-- C9: constructing a TypedMapping with child key `id` from the three raw children
`[{id:1, name:a}, {id:2, name:b}, {id:1, name:c}]` produces exactly two entries, keyed
`1` and `2` in insertion order over the surviving keys, and the entry at key `1` is the
last raw child whose id equals 1 (later entries with an equal derived key overwrite
earlier ones in place). -/
theorem typedMapping_last_write_wins_scenario :
    to_mapping_field (to_child_field Option.some) "id"
        (.list
          [.dict [("id", .int 1), ("name", .str "a")],
           .dict [("id", .int 2), ("name", .str "b")],
           .dict [("id", .int 1), ("name", .str "c")]]) =
      some
        (.typedMap
          [(.int 1, .child [("id", .int 1), ("name", .str "c")]),
           (.int 2, .child [("id", .int 2), ("name", .str "b")])]) ∧
    [(PyVal.int 1, PyVal.child [("id", PyVal.int 1), ("name", PyVal.str "c")]),
        (PyVal.int 2, PyVal.child [("id", PyVal.int 2), ("name", PyVal.str "b")])].length
      = 2 ∧
    mapGet
        [(PyVal.int 1, PyVal.child [("id", PyVal.int 1), ("name", PyVal.str "c")]),
         (PyVal.int 2, PyVal.child [("id", PyVal.int 2), ("name", PyVal.str "b")])]
        (.int 1) = some (.child [("id", .int 1), ("name", .str "c")]) ∧
    mapGet
        [(PyVal.int 1, PyVal.child [("id", PyVal.int 1), ("name", PyVal.str "c")]),
         (PyVal.int 2, PyVal.child [("id", PyVal.int 2), ("name", PyVal.str "b")])]
        (.int 2) = some (.child [("id", .int 2), ("name", .str "b")]) := by
  refine ⟨?_, rfl, ?_, ?_⟩ <;> decide
